import Mathlib

/-!
Verification development for `archivers-common.js`, a library that drives a
remotely-controllable browser over the Chrome DevTools Protocol, intercepts
network responses on two channels (a pausing `Fetch` channel and a non-pausing
`Network` observation channel), and persists captured image artifacts.

The JavaScript source is shallowly embedded below:
* pure string/byte helpers (`wildcardToRegex`, `getImgExt`, `imgFilename`) are
  translated to executable Lean functions over `List Char` / `List Nat`;
* the stateful interception core (`initializeIntercept` / `inspectTargetOrNot`
  and the per-session event handlers) becomes an explicit state machine:
  a state type plus a `deliver` step function that also returns the trace of
  externally visible actions (queue mutations, handler invocations,
  continue-request calls);
* fallible code (`archiveImage`, the configuration check) returns `Except`;
* JavaScript `Map` objects are modelled as insertion-ordered association lists
  with `Map.get`/`Map.set`/`Map.delete` semantics.
-/

deriving instance DecidableEq for Except

/-! ## JavaScript `Map` model (insertion-ordered association list) -/

def mapGet {α : Type} : List (String × α) → String → Option α
  | [], _ => none
  | (k', v) :: rest, k => if k' == k then some v else mapGet rest k

def mapSet {α : Type} : List (String × α) → String → α → List (String × α)
  | [], k, v => [(k, v)]
  | (k', v') :: rest, k, v =>
    if k' == k then (k, v) :: rest else (k', v') :: mapSet rest k v

def mapDelete {α : Type} : List (String × α) → String → List (String × α)
  | [], _ => []
  | (k', v) :: rest, k =>
    if k' == k then mapDelete rest k else (k', v) :: mapDelete rest k

/-! ## `String.prototype.replaceAll` model

JavaScript `s.replaceAll(pat, rep)` scans left to right, replacing
non-overlapping occurrences; the replacement text is not rescanned.  The
recursion is driven by a structural fuel argument (the input length) so that
the function reduces in the kernel. -/

def replaceAllFuel (pat rep : List Char) : Nat → List Char → List Char
  | 0, l => l
  | _ + 1, [] => []
  | fuel + 1, x :: rest =>
    if pat ≠ [] ∧ pat.isPrefixOf (x :: rest) then
      rep ++ replaceAllFuel pat rep fuel ((x :: rest).drop pat.length)
    else
      x :: replaceAllFuel pat rep fuel rest

def replaceAll (pat rep l : List Char) : List Char :=
  replaceAllFuel pat rep l.length l

/-! ## `wildcardToRegex` (source lines 451-457)

The source escapes every character of the class `[.+^$\x7b\x7d()|[\]\\]`,
substitutes `*` with `.*` and `?` with `.`, and builds the anchored regular
expression `^...$` with no flags.  The resulting pattern lies in a tiny regex
fragment: a sequence of literal characters (possibly backslash-escaped), `.`,
and `.*`.  We parse that fragment into a list of atoms and give the atoms the
flagless-engine matching semantics on that fragment: matching is
whole-string anchored, a literal matches itself, and — because the `RegExp`
is built without the `s` flag — `.` matches any character except the
ECMAScript line terminators (LF, CR, U+2028, U+2029). -/

def regexSpecialChars : List Char :=
  ['.', '+', '^', '$', '\x7b', '\x7d', '(', ')', '|', '[', ']', '\\']

def escapeRegexChar (c : Char) : List Char :=
  if c ∈ regexSpecialChars then ['\\', c] else [c]

def escapeRegex (p : List Char) : List Char :=
  (p.map escapeRegexChar).flatten

def wildcardRegexSource (pattern : List Char) : List Char :=
  replaceAll ['?'] ['.'] (replaceAll ['*'] ['.', '*'] (escapeRegex pattern))

inductive RegexAtom where
  | lit (c : Char)
  | anyChar
  | anyStar
deriving DecidableEq, Repr

def parseRegexAtoms : List Char → List RegexAtom
  | [] => []
  | ['\\'] => []
  | '\\' :: c :: rest => .lit c :: parseRegexAtoms rest
  | '.' :: '*' :: rest => .anyStar :: parseRegexAtoms rest
  | '.' :: rest => .anyChar :: parseRegexAtoms rest
  | x :: rest => .lit x :: parseRegexAtoms rest

/-- ECMAScript line terminators (LF, CR, U+2028 LINE SEPARATOR, U+2029
PARAGRAPH SEPARATOR): the characters a flagless `.` does not match. -/
def isLineTerminator (c : Char) : Bool :=
  c == '\n' || c == '\r' || c == '\u2028' || c == '\u2029'

/-- The suffixes of `xs` reachable by letting `.*` consume zero or more
characters from the front: consumption stops at the first line terminator
(which `.` cannot match). -/
def starSuffixes : List Char → List (List Char)
  | [] => [[]]
  | x :: xs =>
    (x :: xs) :: (if isLineTerminator x then [] else starSuffixes xs)

/-- Anchored matching of the regex fragment: the whole input must be
consumed; `.` matches any non-line-terminator character; `.*` consumes any
run of non-line-terminator characters (`starSuffixes`). -/
def regexAccepts : List RegexAtom → List Char → Bool
  | [], xs => xs.isEmpty
  | .lit c :: as, xs =>
    match xs with
    | [] => false
    | x :: xs' => c == x && regexAccepts as xs'
  | .anyChar :: as, xs =>
    match xs with
    | [] => false
    | x :: xs' => !isLineTerminator x && regexAccepts as xs'
  | .anyStar :: as, xs =>
    (starSuffixes xs).any (fun suffix => regexAccepts as suffix)

/-- The compiled matcher for a wildcard pattern (the `RegExp` object of the
source, represented by its atom list). -/
def wildcardToRegex (pattern : List Char) : List RegexAtom :=
  parseRegexAtoms (wildcardRegexSource pattern)

def wildcardTest (pattern s : List Char) : Bool :=
  regexAccepts (wildcardToRegex pattern) s

/-- `RegExpCache.testMultiple` (source lines 37-43), with the cache in
wildcard mode: returns true iff some pattern's compiled regex matches.
The cache itself is behaviorally transparent (it returns the same compiled
matcher for the same pattern string). -/
def testMultiple (s : String) (patterns : List String) : Bool :=
  patterns.any (fun p => wildcardTest p.data s.data)

def wildcardMetaChars : List Char := '*' :: '?' :: regexSpecialChars

/-! ## ArchiveStore (source lines 58-103, 397-414)

Buffers are modelled as `List Nat` (byte values), `buffer.toString('hex')` as
`bytesToHex`.  `archiveImage` becomes a function from an explicit environment
(the random UUID, the clock, the `SKIP_RECORD` flag, the configured archive
path, and the calendar conversion done by the platform `Date` in `dateDir`)
and state (the `archivedImages` id set) to an `Except`: `.error` models a
JavaScript `throw`, `.ok` carries the new id set, the list of file writes
performed, and the final `details` record (the caller's record, which the
source mutates in place). -/

/-- Lowercase hex digit for `n < 16` (codepoint arithmetic: `48` is `'0'`,
`97` is `'a'`). -/
def hexDigitChar (n : Nat) : Char :=
  if n < 10 then Char.ofNat (48 + n) else Char.ofNat (87 + n)

def byteToHex (n : Nat) : List Char :=
  [hexDigitChar (n % 256 / 16), hexDigitChar (n % 16)]

def bytesToHex (l : List Nat) : List Char :=
  (l.map byteToHex).flatten

/-- JS `String.prototype.startsWith` on character lists:
`startsWithChars pre l` is true iff `l` starts with `pre`. -/
def startsWithChars : List Char → List Char → Bool
  | [], _ => true
  | p :: ps, l =>
    match l with
    | [] => false
    | x :: xs => p == x && startsWithChars ps xs

/-- The fixed signature table of `getImgExt` (hex markers, insertion order). -/
def magicMarkers : List (List Char × String) :=
  [("424d".data, "bmp"),
   ("ffd8ff".data, "jpg"),
   ("47494638".data, "gif"),
   ("89504e470d0a1a0a".data, "png"),
   ("5249464657454250".data, "webp")]

/-- `getImgExt(buffer)`: hex-encode the first 8 bytes and return the extension
of the first marker the hex string starts with; otherwise throw
`'Unknown image type.'`. -/
def getImgExt (buffer : List Nat) : Except String String :=
  let firstBytes := bytesToHex (buffer.take 8)
  match magicMarkers.find? (fun m => startsWithChars m.1 firstBytes) with
  | some m => .ok m.2
  | none => .error "Unknown image type."

/-- The literal appended by `imgFilename` when truncating (the source file
contains the mojibake byte sequence C3 A2, E2 82 AC, C2 A6). -/
def truncMarker : List Char := ['â', '€', '¦']

def keepFilenameChar (c : Char) : Bool :=
  ('a' ≤ c && c ≤ 'z') || ('A' ≤ c && c ≤ 'Z') || ('0' ≤ c && c ≤ '9') ||
    c == '-' || c == '_'

/-- `imgFilename({id, prompt})` (source lines 397-414). -/
def imgFilename (id prompt : List Char) : List Char :=
  let maxLength := 240
  let prompt := replaceAll ['.', ' '] ['_'] prompt
  let prompt := replaceAll [',', ' '] ['_'] prompt
  let prompt := replaceAll ['.'] ['_'] prompt
  let prompt := replaceAll [','] ['_'] prompt
  let prompt := replaceAll [' '] ['-'] prompt
  let prompt := prompt.filter keepFilenameChar
  let prompt :=
    if prompt.getLast? = some '_' ∨ prompt.getLast? = some '-' then
      prompt.dropLast
    else prompt
  let filename := id ++ '-' :: prompt
  if filename.length > maxLength then filename.take maxLength ++ truncMarker
  else filename

/-- The slice of a JS `details` object that `archiveImage` reads or writes.
Absent (`undefined`) fields are `none`. -/
structure ArchiveDetails where
  id : Option String := none
  prompt : Option String := none
  unixTime : Option Nat := none
deriving DecidableEq, Repr

/-- Environment of a call to `archiveImage`: everything the function reads
from outside its arguments.  `dateDir` stands for the platform `Date`
calendar conversion (source lines 384-387), which depends on the local
time zone. -/
structure ArchiveEnv where
  generatedId : String
  nowMs : Nat
  skipRecord : Bool
  archivePath : String
  dateDir : Nat → String

/-- The `archivedImages` set (source line 19), as the list of ids it holds. -/
structure ArchiveState where
  index : List String
deriving DecidableEq, Repr

inductive WriteData where
  | image (bytes : List Nat)
  | record (details : ArchiveDetails)
deriving DecidableEq, Repr

structure ArchiveResult where
  index : List String
  writes : List (String × WriteData)
  details : Option ArchiveDetails
deriving DecidableEq, Repr

/-- JS string coercion `''+x` for a possibly-undefined string. -/
def jsToString : Option String → String
  | none => "undefined"
  | some s => s

/-- JS falsiness of a possibly-undefined string (`!id`). -/
def jsFalsyId : Option String → Bool
  | none => true
  | some s => s == ""

/-- The id `archiveImage` ends up using: the caller's id unless it is falsy,
in which case the freshly generated UUID. -/
def resolveId (env : ArchiveEnv) (id0 : Option String) : String :=
  if jsFalsyId id0 then env.generatedId else jsToString id0

/-- `archiveImage({id, details, imgData})` (source lines 76-103). -/
def archiveImage (env : ArchiveEnv) (st : ArchiveState) (id0 : Option String)
    (details0 : Option ArchiveDetails) (imgData : List Nat) :
    Except String ArchiveResult :=
  if jsToString id0 ∈ st.index then
    .ok { index := st.index, writes := [], details := details0 }
  else
    let id := resolveId env id0
    let details := details0.getD {}
    if imgData.length == 0 then
      .error ("Error, zero length: " ++ id)
    else
      let promptFinal := details.prompt.getD "[unknown prompt]"
      let unixFinal := details.unixTime.getD (env.nowMs / 1000)
      let details : ArchiveDetails :=
        { id := some id, prompt := some promptFinal, unixTime := some unixFinal }
      match getImgExt imgData with
      | .error e => .error e
      | .ok ext =>
        let imgPath := env.archivePath ++ "/images/" ++ env.dateDir unixFinal
          ++ "/" ++ String.mk (imgFilename id.data promptFinal.data) ++ "." ++ ext
        let writes := [(imgPath, WriteData.image imgData)]
        if env.skipRecord then
          .ok { index := st.index, writes := writes, details := some details }
        else
          let recPath := env.archivePath ++ "/database/" ++ env.dateDir unixFinal
            ++ "/" ++ id ++ ".json"
          .ok { index := st.index ++ [id],
                writes := writes ++ [(recPath, WriteData.record details)],
                details := some details }

/-! ## Interception core (source lines 114-282)

`initializeIntercept` closes over three pieces of mutable state: the
`sessions` map (target id to bound session), the shared
`networkResponseCatchQueue` map (underlying network request id to in-flight
pending observation), and the CDP connection.  We model the first two as
`InterceptState`.  Each bound session carries the data the source captures in
the `inspectTargetOrNot` closure: the target url, the accumulated patterns,
the `shouldInspect` bitmask and whether `Network` fetch observation was
enabled.

Event handlers are registered per session; the CDP library routes an event to
a session's handlers only while that session is bound (a detached session
receives nothing).  `deliver` is the corresponding step function: given a
session id and an event, it returns the new state together with the trace of
externally visible actions, in the order the source performs them. -/

structure CdpRequest where
  url : String
deriving DecidableEq, Repr

structure CdpResponse where
  status : Nat
  statusText : String
  headers : List (String × String)
deriving DecidableEq, Repr

/-- The object stored in `networkResponseCatchQueue` and handed to
`responseReceivedHandler` (source lines 211 and 240-244). -/
structure PendingEntry where
  initiator : String
  asFetch : Bool
  requestId : String
  networkId : Option String
  sessionId : String
  request : CdpRequest
  response : Option CdpResponse
deriving DecidableEq, Repr

def shouldInspectBy.targetHandler : Nat := 1
def shouldInspectBy.responseCatcher : Nat := 2

structure SessionInfo where
  targetId : String
  sessionId : String
  url : String
  patterns : List String
  shouldInspect : Nat
  networkFetchEnabled : Bool
deriving DecidableEq, Repr

structure InterceptState where
  sessions : List SessionInfo
  queue : List (String × PendingEntry)
deriving DecidableEq, Repr

/-- The session events wired in `inspectTargetOrNot` (source lines 209-258).
`requestPaused` carries the `Fetch` request id, the underlying `networkId`,
and the response metadata of the paused response. -/
inductive NetEvent where
  | requestWillBeSent (requestId : String) (request : CdpRequest)
  | responseReceived (requestId : String) (response : CdpResponse)
  | loadingFinished (requestId : String)
  | requestPaused (requestId : String) (networkId : String)
      (request : CdpRequest) (response : CdpResponse)
deriving DecidableEq, Repr

/-- Externally visible actions of the handlers, in execution order:
mutations of `networkResponseCatchQueue`, invocations of
`responseReceivedHandler` (one constructor per channel), and
`Fetch.continueRequest` calls. -/
inductive HandlerAction where
  | queueInsert (requestId : String) (entry : PendingEntry)
  | queueDelete (requestId : String)
  | emitObservation (requestId : String) (entry : PendingEntry)
  | emitPausing (entry : PendingEntry)
  | continueRequest (requestId : String)
deriving DecidableEq, Repr

/-- Caller-supplied behavior that the handlers consult: whether
`requestPausedHandler` is configured and, per fetch request id, whether it
signals "do not auto-continue" (a handler that throws is caught and behaves
like returning a falsy value, see the standalone error model below). -/
structure InterceptConfig where
  requestPausedHandler : Option (String → Bool)

def findSession (sessions : List SessionInfo) (sid : String) : Option SessionInfo :=
  sessions.find? (fun s => s.sessionId == sid)

/-- One event delivered to the handlers of session `sid`
(source lines 209-258). -/
def deliver (cfg : InterceptConfig) (st : InterceptState) (sid : String)
    (ev : NetEvent) : InterceptState × List HandlerAction :=
  match findSession st.sessions sid with
  | none => (st, [])
  | some sess =>
    match ev with
    | .requestWillBeSent requestId request =>
      if sess.shouldInspect &&& shouldInspectBy.responseCatcher ≠ 0
          ∧ sess.networkFetchEnabled then
        if testMultiple request.url sess.patterns then
          let entry : PendingEntry :=
            { initiator := sess.url, asFetch := false, requestId,
              networkId := none, sessionId := sid, request, response := none }
          ({ st with queue := mapSet st.queue requestId entry },
           [.queueInsert requestId entry])
        else (st, [])
      else (st, [])
    | .responseReceived requestId response =>
      if sess.shouldInspect &&& shouldInspectBy.responseCatcher ≠ 0
          ∧ sess.networkFetchEnabled then
        match mapGet st.queue requestId with
        | some e =>
          ({ st with queue := mapSet st.queue requestId { e with response := some response } }, [])
        | none => (st, [])
      else (st, [])
    | .loadingFinished requestId =>
      if sess.shouldInspect &&& shouldInspectBy.responseCatcher ≠ 0
          ∧ sess.networkFetchEnabled then
        match mapGet st.queue requestId with
        | some e =>
          ({ st with queue := mapDelete st.queue requestId },
           [.queueDelete requestId, .emitObservation requestId e])
        | none => (st, [])
      else (st, [])
    | .requestPaused requestId networkId request response =>
      let (queue', trace) :=
        if sess.shouldInspect &&& shouldInspectBy.responseCatcher ≠ 0 then
          (mapDelete st.queue networkId,
           [HandlerAction.queueDelete networkId,
            HandlerAction.emitPausing
              { initiator := sess.url, asFetch := true, requestId,
                networkId := some networkId, sessionId := sid, request,
                response := some response }])
        else (st.queue, [])
      let doNotContinue :=
        if sess.shouldInspect &&& shouldInspectBy.targetHandler ≠ 0 then
          match cfg.requestPausedHandler with
          | some f => f requestId
          | none => false
        else false
      ({ st with queue := queue' },
       trace ++ (if doNotContinue then [] else [HandlerAction.continueRequest requestId]))

def runDeliver (cfg : InterceptConfig) (st : InterceptState) :
    List (String × NetEvent) → InterceptState × List HandlerAction
  | [] => (st, [])
  | (sid, ev) :: rest =>
    let (st', trace) := deliver cfg st sid ev
    let (st'', trace') := runDeliver cfg st' rest
    (st'', trace ++ trace')

/-- Detaching the session bound to `targetId` (source lines 194-197 and
266-268): the session is removed from the `sessions` map.  Nothing touches
`networkResponseCatchQueue`. -/
def detachSession (st : InterceptState) (targetId : String) : InterceptState :=
  { st with sessions := st.sessions.filter (fun s => s.targetId != targetId) }

/-- A `catchResponses` rule, with `from`/`intercept` already normalized from
string to array (source lines 170-172). -/
structure CatchRule where
  fromPat : List String
  intercept : List String
  serviceWorkerOnly : Bool
  enableNetworkFetch : Bool
deriving DecidableEq, Repr

structure TargetInfo where
  targetId : String
  url : String
  targetType : String
deriving DecidableEq, Repr

/-- Configuration consulted by `inspectTargetOrNot`: the `catchResponses`
rule list (possibly absent, as JavaScript `undefined`), the optional
`targetHandler` (modelled by the patterns it registers via
`registerInspection`, or `none` when it does not register interest), and the
session-id allocator of the CDP library. -/
structure InterceptInit where
  catchResponses : Option (List CatchRule)
  targetHandler : Option (String → String → Option (List String))
  newSessionId : String → String

/-- `inspectTargetOrNot` (source lines 157-270), for a successful bind.
Returns the state as of return (or as of the thrown error) and `.error e`
when the handler body throws: iterating `catchResponses` when it is
`undefined` throws a `TypeError` before any other statement has an effect. -/
def inspectTargetOrNot (cfgI : InterceptInit) (st : InterceptState)
    (t : TargetInfo) : InterceptState × Except String Unit :=
  let beingInspected := st.sessions.any (fun s => s.targetId == t.targetId)
  match cfgI.catchResponses with
  | none => (st, .error "TypeError: catchResponses is not iterable")
  | some rules =>
    let step := rules.foldl
      (fun (acc : List String × Bool) rule =>
        if testMultiple t.url rule.fromPat
            ∧ (¬rule.serviceWorkerOnly ∨ t.targetType = "service_worker") then
          (acc.1 ++ rule.intercept, acc.2 || rule.enableNetworkFetch)
        else acc)
      ([], false)
    let rulePatterns := step.1
    let networkFetchEnabled := step.2
    let shouldInspect₁ :=
      if rulePatterns ≠ [] then shouldInspectBy.responseCatcher else 0
    let (shouldInspect₂, patterns) :=
      match cfgI.targetHandler with
      | some th =>
        match th t.targetType t.url with
        | some extra =>
          (shouldInspect₁ ||| shouldInspectBy.targetHandler, rulePatterns ++ extra)
        | none => (shouldInspect₁, rulePatterns)
      | none => (shouldInspect₁, rulePatterns)
    if shouldInspect₂ ≠ 0 ∧ ¬beingInspected then
      let sess : SessionInfo :=
        { targetId := t.targetId, sessionId := cfgI.newSessionId t.targetId,
          url := t.url, patterns := patterns, shouldInspect := shouldInspect₂,
          networkFetchEnabled := networkFetchEnabled }
      ({ st with sessions := st.sessions ++ [sess] }, .ok ())
    else if beingInspected ∧ shouldInspect₂ = 0 then
      (detachSession st t.targetId, .ok ())
    else (st, .ok ())

def runNotifications (cfgI : InterceptInit) (st : InterceptState) :
    List TargetInfo → InterceptState
  | [] => st
  | t :: rest => runNotifications cfgI (inspectTargetOrNot cfgI st t).1 rest

/-! ## Configuration check and paused-handler error model -/

inductive StartAction where
  | connectAttempt
deriving DecidableEq, Repr

/-- The prefix of `initializeIntercept` up to and including the connection
attempt (source lines 114-136): the together-or-not-at-all check runs first;
only when it passes does the function go on to connect.  Returns the actions
performed and the thrown error, if any. -/
def initializeInterceptStart (catchResponses : Option (List CatchRule))
    (hasResponseReceivedHandler : Bool) : List StartAction × Except String Unit :=
  if (catchResponses.isSome || hasResponseReceivedHandler)
      && !(catchResponses.isSome && hasResponseReceivedHandler) then
    ([], .error "responseReceivedHandler must be used together with catchResponses")
  else
    ([StartAction.connectAttempt], .ok ())

structure PausedOutcome where
  continued : Bool
  caughtLog : List String
deriving DecidableEq, Repr

/-- Error-flow model of the `Fetch.requestPaused` handler body
(source lines 231-258).  The caller-supplied handlers are represented by
their outcomes: `responseReceivedResult` is how the awaited
`responseReceivedHandler` call ends, `requestPausedResult` is `none` when no
`requestPausedHandler` is configured and otherwise how its call ends
(`.ok b` returning the truthiness `b` of its value), and `continueResult` is
how the `Fetch.continueRequest` send ends.  The function returns `.error`
exactly when the handler body would propagate an exception. -/
def fetchRequestPausedHandler (shouldInspect : Nat)
    (responseReceivedResult : Except String Unit)
    (requestPausedResult : Option (Except String Bool))
    (continueResult : Except String Unit) : Except String PausedOutcome :=
  let tryOutcome : Except String (Option Bool) :=
    match (if shouldInspect &&& shouldInspectBy.responseCatcher ≠ 0 then
            responseReceivedResult else .ok ()) with
    | .error e => .error e
    | .ok _ =>
      if shouldInspect &&& shouldInspectBy.targetHandler ≠ 0 then
        match requestPausedResult with
        | some (.error e) => .error e
        | some (.ok b) => .ok (some b)
        | none => .ok none
      else .ok none
  let caught : Bool × List String :=
    match tryOutcome with
    | .error e => (false, [e])
    | .ok b => (b.getD false, [])
  if caught.1 then
    .ok { continued := false, caughtLog := caught.2 }
  else
    match continueResult with
    | .ok _ => .ok { continued := true, caughtLog := caught.2 }
    | .error e => .ok { continued := true, caughtLog := caught.2 ++ [e] }

/-! ## Concrete objects used by witnesses and counterexamples -/

def envW : ArchiveEnv :=
  { generatedId := "gen-uuid", nowMs := 1700000000123, skipRecord := false,
    archivePath := "/arch", dateDir := fun _ => "2023/11/14" }

def cfgW : InterceptConfig := { requestPausedHandler := none }

def sessW : SessionInfo :=
  { targetId := "t1", sessionId := "s1", url := "https://site.example/",
    patterns := ["https://site.example/img/*"], shouldInspect := 2,
    networkFetchEnabled := true }

def stW : InterceptState := { sessions := [sessW], queue := [] }

def reqW : CdpRequest := { url := "https://site.example/img/a.png" }

def respW : CdpResponse := { status := 200, statusText := "OK", headers := [] }

/-- The pending entry created for `reqW` on session `s1`. -/
def entryW : PendingEntry :=
  { initiator := "https://site.example/", asFetch := false, requestId := "r1",
    networkId := none, sessionId := "s1", request := reqW, response := none }

/-- `stW` after the observation channel saw `Network.requestWillBeSent` for
request `r1`. -/
def stW1 : InterceptState := (deliver cfgW stW "s1" (.requestWillBeSent "r1" reqW)).1

/-- Result of the successful archive call used by the C9 witness. -/
def resW : ArchiveResult :=
  { index := ["7"],
    writes := [("/arch/images/2023/11/14/7-unknown-prompt.jpg",
                 .image [0xff, 0xd8, 0xff]),
               ("/arch/database/2023/11/14/7.json",
                 .record { id := some "7", prompt := some "[unknown prompt]",
                           unixTime := some 1700000000 })],
    details := some { id := some "7", prompt := some "[unknown prompt]",
                      unixTime := some 1700000000 } }

/-- The condition under which the source skips `Fetch.continueRequest`:
`requestPausedHandler` ran (the target-handler bit is set and the handler is
configured), it did not throw, and it returned a truthy value; if the
response-catcher bit is set, `responseReceivedHandler` must not have thrown
first (a throw there skips the `requestPausedHandler` call). -/
def rphSignaledStop (shouldInspect : Nat) (responseReceivedResult : Except String Unit)
    (requestPausedResult : Option (Except String Bool)) : Prop :=
  shouldInspect &&& shouldInspectBy.targetHandler ≠ 0 ∧
  requestPausedResult = some (.ok true) ∧
  (shouldInspect &&& shouldInspectBy.responseCatcher ≠ 0 →
    responseReceivedResult = .ok ())

/-! ## Map lemmas -/

theorem mapGet_mapDelete {α : Type} (m : List (String × α)) (k r : String) :
    mapGet (mapDelete m r) k = if k = r then none else mapGet m k := by
  induction m with
  | nil => simp [mapGet, mapDelete]
  | cons hd tl ih =>
    obtain ⟨k', v⟩ := hd
    by_cases hr : k' = r <;> by_cases hk : k' = k <;> by_cases hkr : k = r <;>
      simp_all [mapGet, mapDelete, beq_iff_eq]

theorem mapGet_mapSet_ne {α : Type} (m : List (String × α)) (k r : String)
    (v : α) (h : k ≠ r) : mapGet (mapSet m r v) k = mapGet m k := by
  induction m with
  | nil => simp [mapGet, mapSet, beq_iff_eq, Ne.symm h]
  | cons hd tl ih =>
    obtain ⟨k', v'⟩ := hd
    by_cases hr : k' = r <;> by_cases hk : k' = k <;>
      simp_all [mapGet, mapSet, beq_iff_eq]

/-! ## C3: persist is idempotent on an already-archived id -/

/-- C3: for every id already present in the archived-id index, a call to
`archiveImage` with that id returns without error, performs no file write,
and leaves the index (and hence the disk state) unchanged, regardless of the
payload or details passed. -/
theorem C3_persist_idempotent (env : ArchiveEnv) (st : ArchiveState)
    (id0 : Option String) (details0 : Option ArchiveDetails) (imgData : List Nat)
    (h : jsToString id0 ∈ st.index) :
    archiveImage env st id0 details0 imgData =
      .ok { index := st.index, writes := [], details := details0 } := by
  unfold archiveImage
  rw [if_pos h]

theorem C3_witness :
    jsToString (some "42") ∈ (ArchiveState.mk ["42"]).index ∧
    archiveImage envW (ArchiveState.mk ["42"]) (some "42")
        (some { prompt := some "other" }) [9, 9, 9] =
      .ok { index := ["42"], writes := [], details := some { prompt := some "other" } } :=
  ⟨by decide,
   C3_persist_idempotent envW (ArchiveState.mk ["42"]) (some "42")
     (some { prompt := some "other" }) [9, 9, 9] (by decide)⟩

/-! ## C6: captureRules/responseReceivedHandler supplied together or not at all -/

/-- C6: when exactly one of `catchResponses` and `responseReceivedHandler` is
supplied, `initializeIntercept` throws the configuration error before any
connection attempt (no connect action is performed); when both or neither are
supplied, no such error is raised and the connection attempt proceeds. -/
theorem C6_capture_config_together (catchResponses : Option (List CatchRule))
    (hasHandler : Bool) :
    (catchResponses.isSome ≠ hasHandler →
      initializeInterceptStart catchResponses hasHandler =
        ([], .error "responseReceivedHandler must be used together with catchResponses")) ∧
    (catchResponses.isSome = hasHandler →
      initializeInterceptStart catchResponses hasHandler =
        ([StartAction.connectAttempt], .ok ())) := by
  cases catchResponses <;> cases hasHandler <;>
    simp [initializeInterceptStart]

theorem C6_witness :
    (some ([] : List CatchRule)).isSome ≠ false ∧
    initializeInterceptStart (some ([] : List CatchRule)) false =
      ([], .error "responseReceivedHandler must be used together with catchResponses") :=
  ⟨by decide, (C6_capture_config_together (some []) false).1 (by decide)⟩

/-! ## C8: filename sanitization -/

set_option maxRecDepth 4000 in
/-- C8: the filename built for id `"42"` and prompt
`"A cat, sleeping. Peacefully!"` is exactly `42-A-cat_sleeping_Peacefully`.
The second conjunct exercises the single-trailing-separator strip
(`"hi."` sanitizes to `hi_` and then to `hi`), and the third the
240-character truncation with the appended marker. -/
theorem C8_filename_sanitization :
    imgFilename "42".data "A cat, sleeping. Peacefully!".data =
      "42-A-cat_sleeping_Peacefully".data ∧
    imgFilename "7".data "hi.".data = "7-hi".data ∧
    imgFilename "1".data (List.replicate 300 'a') =
      '1' :: '-' :: List.replicate 238 'a' ++ truncMarker :=
  ⟨by decide, by decide, by decide⟩

/-! ## C10: absent capture rules make every target evaluation throw -/

/-- C10: if the configuration supplies neither `catchResponses` nor
`responseReceivedHandler` — a combination the together-or-not-at-all check
accepts — then every `Target.targetCreated` / `Target.targetInfoChanged`
notification makes `inspectTargetOrNot` throw (iterating the `undefined`
rule list raises a `TypeError` before any state change), so no target is
ever bound to a session: any sequence of notifications leaves the state
untouched. -/
theorem C10_absent_rules_never_bind (cfgI : InterceptInit)
    (hnone : cfgI.catchResponses = none) :
    (initializeInterceptStart none false).2 = .ok () ∧
    (∀ st t, inspectTargetOrNot cfgI st t =
      (st, .error "TypeError: catchResponses is not iterable")) ∧
    (∀ st ts, runNotifications cfgI st ts = st) := by
  have hstep : ∀ st t, inspectTargetOrNot cfgI st t =
      (st, .error "TypeError: catchResponses is not iterable") := by
    intro st t
    unfold inspectTargetOrNot
    rw [hnone]
  refine ⟨rfl, hstep, ?_⟩
  intro st ts
  induction ts generalizing st with
  | nil => rfl
  | cons t rest ih =>
    rw [runNotifications, hstep st t]
    exact ih st

theorem C10_witness :
    (InterceptInit.mk none none id).catchResponses = none ∧
    runNotifications (InterceptInit.mk none none id)
      { sessions := [], queue := [] }
      [⟨"t1", "https://site.example/", "page"⟩] = { sessions := [], queue := [] } :=
  ⟨rfl, (C10_absent_rules_never_bind (InterceptInit.mk none none id) rfl).2.2
    { sessions := [], queue := [] } [⟨"t1", "https://site.example/", "page"⟩]⟩

/-! ## C4: sniffing and error handling of persist -/

theorem startsWithChars_eq_true_iff (p l : List Char) :
    startsWithChars p l = true ↔ p <+: l := by
  induction p generalizing l with
  | nil => simp [startsWithChars, List.nil_prefix]
  | cons a ps ih =>
    cases l with
    | nil => simp [startsWithChars]
    | cons x xs => simp [startsWithChars, ih, List.cons_prefix_cons]

/-- C4: for a not-yet-archived id, a zero-length payload throws the
zero-length error before anything is written; a non-empty payload whose
leading bytes match none of the fixed signatures throws
`'Unknown image type.'`; a payload starting with `89 50 4E 47 0D 0A 1A 0A`
sniffs as `png` and one starting with `FF D8 FF` sniffs as `jpg`. -/
theorem C4_sniffing_and_failures :
    (∀ env st id0 d, jsToString id0 ∉ st.index →
      archiveImage env st id0 d [] =
        .error ("Error, zero length: " ++ resolveId env id0)) ∧
    (∀ env st id0 d img, jsToString id0 ∉ st.index → img ≠ [] →
      (∀ m ∈ magicMarkers, ¬ m.1 <+: bytesToHex (img.take 8)) →
      archiveImage env st id0 d img = .error "Unknown image type.") ∧
    (∀ rest, getImgExt ([0x89, 0x50, 0x4e, 0x47, 0x0d, 0x0a, 0x1a, 0x0a] ++ rest) =
      .ok "png") ∧
    (∀ rest, getImgExt ([0xff, 0xd8, 0xff] ++ rest) = .ok "jpg") := by
  refine ⟨?_, ?_, fun rest => rfl, fun rest => rfl⟩
  · intro env st id0 d hnon
    simp [archiveImage, hnon]
  · intro env st id0 d img hnon hne hm
    have hfind : magicMarkers.find?
        (fun m => startsWithChars m.1 (bytesToHex (img.take 8))) = none :=
      List.find?_eq_none.mpr fun m hmm => by
        simpa [startsWithChars_eq_true_iff] using hm m hmm
    have hlen : (img.length == 0) = false := by
      cases img with
      | nil => exact absurd rfl hne
      | cons a l => rfl
    simp [archiveImage, hnon, getImgExt, hfind, hlen]

theorem C4_witness :
    (jsToString (some "9") ∉ (ArchiveState.mk []).index ∧
      archiveImage envW (ArchiveState.mk []) (some "9") none [] =
        .error ("Error, zero length: " ++ resolveId envW (some "9"))) ∧
    (([1, 2, 3] : List Nat) ≠ [] ∧
      archiveImage envW (ArchiveState.mk []) (some "9") none [1, 2, 3] =
        .error "Unknown image type.") ∧
    getImgExt ([0x89, 0x50, 0x4e, 0x47, 0x0d, 0x0a, 0x1a, 0x0a] ++ []) = .ok "png" ∧
    getImgExt ([0xff, 0xd8, 0xff] ++ []) = .ok "jpg" :=
  ⟨⟨by decide,
    C4_sniffing_and_failures.1 envW (ArchiveState.mk []) (some "9") none (by decide)⟩,
   ⟨by decide,
    C4_sniffing_and_failures.2.1 envW (ArchiveState.mk []) (some "9") none [1, 2, 3]
      (by decide) (by decide) (by decide)⟩,
   C4_sniffing_and_failures.2.2.1 [],
   C4_sniffing_and_failures.2.2.2 []⟩

/-! ## C9: persist updates the caller-visible details record -/

/-- C9: when a non-duplicate call to `archiveImage` with a caller-supplied
details record returns normally, the details record the caller shares with
the function ends up with `id` set to the resolved (possibly freshly
generated) id, `prompt` defaulted to the sentinel when it was absent, and
`unixTime` defaulted to the capture time (seconds) when it was absent.  The
source mutates the caller's object in place; the embedding models that
shared object as the `details` field of the returned state. -/
theorem C9_details_record_updated (env : ArchiveEnv) (st : ArchiveState)
    (id0 : Option String) (d : ArchiveDetails) (imgData : List Nat)
    (r : ArchiveResult)
    (hnondup : jsToString id0 ∉ st.index)
    (hok : archiveImage env st id0 (some d) imgData = .ok r) :
    r.details = some { id := some (resolveId env id0),
                       prompt := some (d.prompt.getD "[unknown prompt]"),
                       unixTime := some (d.unixTime.getD (env.nowMs / 1000)) } := by
  unfold archiveImage at hok
  rw [if_neg hnondup] at hok
  simp only [Option.getD_some] at hok
  split at hok
  · exact absurd hok (by simp)
  · split at hok
    · exact absurd hok (by simp)
    · split at hok <;>
      · rw [Except.ok.injEq] at hok
        rw [← hok]

theorem C9_witness :
    archiveImage envW (ArchiveState.mk []) (some "7") (some {}) [0xff, 0xd8, 0xff] =
      .ok resW ∧
    resW.details = some { id := some "7", prompt := some "[unknown prompt]",
                          unixTime := some 1700000000 } :=
  ⟨by decide,
   C9_details_record_updated envW (ArchiveState.mk []) (some "7") {}
     [0xff, 0xd8, 0xff] resW (by decide) (by decide)⟩

/-! ## C5: paused-request handling never propagates errors -/

/-- C5: the `Fetch.requestPaused` handler body never propagates an exception,
whatever the caller-supplied handlers do; unless the raw-pause handler
successfully returned a truthy "do not auto-continue" value,
`Fetch.continueRequest` is issued; and a failure of the continue-request call
itself is only logged (the outcome is still a normal return). -/
theorem C5_paused_handler_error_isolation (shouldInspect : Nat)
    (responseReceivedResult : Except String Unit)
    (requestPausedResult : Option (Except String Bool))
    (continueResult : Except String Unit) :
    ∃ o, fetchRequestPausedHandler shouldInspect responseReceivedResult
        requestPausedResult continueResult = .ok o ∧
      (o.continued = false ↔
        rphSignaledStop shouldInspect responseReceivedResult requestPausedResult) ∧
      (∀ e, continueResult = .error e → o.continued = true → e ∈ o.caughtLog) := by
  rcases requestPausedResult with _ | e1b
  all_goals try rcases e1b with e1 | b
  all_goals try cases b
  all_goals rcases responseReceivedResult with e0 | u
  all_goals rcases continueResult with e2 | u2
  all_goals by_cases h2 : shouldInspect &&& shouldInspectBy.responseCatcher ≠ 0
  all_goals by_cases h1 : shouldInspect &&& shouldInspectBy.targetHandler ≠ 0
  all_goals simp_all [fetchRequestPausedHandler, rphSignaledStop]

theorem C5_witness :
    ∃ o, fetchRequestPausedHandler 3 (.error "boom") (some (.ok true))
        (.error "cfail") = .ok o ∧
      (o.continued = false ↔ rphSignaledStop 3 (.error "boom") (some (.ok true))) ∧
      (∀ e, (Except.error "cfail" : Except String Unit) = .error e →
        o.continued = true → e ∈ o.caughtLog) :=
  C5_paused_handler_error_isolation 3 (.error "boom") (some (.ok true)) (.error "cfail")

/-! ## Interception machine lemmas -/

theorem deliver_unknown_session (cfg : InterceptConfig) (st : InterceptState)
    (sid : String) (ev : NetEvent)
    (h : findSession st.sessions sid = none) :
    deliver cfg st sid ev = (st, []) := by
  unfold deliver
  rw [h]

theorem runDeliver_unknown_session (cfg : InterceptConfig) (st : InterceptState)
    (sid : String) (evs : List NetEvent)
    (h : findSession st.sessions sid = none) :
    runDeliver cfg st (evs.map (fun e => (sid, e))) = (st, []) := by
  induction evs with
  | nil => rfl
  | cons e rest ih =>
    simp [runDeliver, deliver_unknown_session cfg st sid e h, ih]

theorem deliver_preserves_absent (cfg : InterceptConfig) (st : InterceptState)
    (sid : String) (ev : NetEvent) (nid : String)
    (hq : mapGet st.queue nid = none)
    (hev : ∀ r, ev ≠ NetEvent.requestWillBeSent nid r) :
    mapGet (deliver cfg st sid ev).1.queue nid = none ∧
    ∀ e, HandlerAction.emitObservation nid e ∉ (deliver cfg st sid ev).2 := by
  cases hfind : findSession st.sessions sid with
  | none =>
    rw [deliver_unknown_session cfg st sid ev hfind]
    exact ⟨hq, by simp⟩
  | some sess =>
    cases ev with
    | requestWillBeSent rid req =>
      have hrid : rid ≠ nid := fun hh => hev req (by rw [hh])
      simp only [deliver, hfind]
      split_ifs with hflags hmatch
      · exact ⟨by simpa [mapGet_mapSet_ne _ _ _ _ (Ne.symm hrid)] using hq, by simp⟩
      · exact ⟨hq, by simp⟩
      · exact ⟨hq, by simp⟩
    | responseReceived rid resp =>
      simp only [deliver, hfind]
      split_ifs with hflags
      · cases hm : mapGet st.queue rid with
        | none => exact ⟨hq, by simp⟩
        | some e =>
          have hrid : rid ≠ nid := by
            intro hh
            rw [hh, hq] at hm
            exact Option.noConfusion hm
          exact ⟨by simpa [mapGet_mapSet_ne _ _ _ _ (Ne.symm hrid)] using hq, by simp⟩
      · exact ⟨hq, by simp⟩
    | loadingFinished rid =>
      simp only [deliver, hfind]
      split_ifs with hflags
      · cases hm : mapGet st.queue rid with
        | none => exact ⟨hq, by simp⟩
        | some e =>
          have hrid : rid ≠ nid := by
            intro hh
            rw [hh, hq] at hm
            exact Option.noConfusion hm
          refine ⟨?_, ?_⟩
          · simp [mapGet_mapDelete, hq]
          · intro e'
            simp [Ne.symm hrid]
      · exact ⟨hq, by simp⟩
    | requestPaused rid nid2 req resp =>
      simp only [deliver, hfind]
      refine ⟨?_, ?_⟩
      · split_ifs
        all_goals simp [mapGet_mapDelete, hq]
      · intro e'
        split_ifs
        all_goals simp

theorem runDeliver_no_observation (cfg : InterceptConfig) (st : InterceptState)
    (evs : List (String × NetEvent)) (nid : String)
    (hq : mapGet st.queue nid = none)
    (hev : ∀ p ∈ evs, ∀ r, p.2 ≠ NetEvent.requestWillBeSent nid r) :
    ∀ e, HandlerAction.emitObservation nid e ∉ (runDeliver cfg st evs).2 := by
  induction evs generalizing st with
  | nil => simp [runDeliver]
  | cons p rest ih =>
    obtain ⟨sid, ev⟩ := p
    have hhead := deliver_preserves_absent cfg st sid ev nid hq
      (hev (sid, ev) (List.mem_cons_self _ _))
    have htail := ih (deliver cfg st sid ev).1 hhead.1
      (fun q hqmem => hev q (List.mem_cons_of_mem _ hqmem))
    intro e
    simp only [runDeliver, List.mem_append]
    intro hc
    rcases hc with hc | hc
    · exact hhead.2 e hc
    · exact htail e hc

/-! ## C1: the pausing channel evicts the pending observation first -/

/-- C1: when a `Fetch.requestPaused` report arrives for a session whose
response capture is enabled, the handler deletes the pending observation
keyed by the underlying network request id from `networkResponseCatchQueue`
before invoking `responseReceivedHandler` (the action trace starts with the
deletion, then the pausing-channel emission), the resulting queue no longer
holds that key, and as long as no later `Network.requestWillBeSent` re-creates
an entry under the same id, no later event on any session emits an
observation-channel report for that id. -/
theorem C1_pausing_evicts_before_emit (cfg : InterceptConfig)
    (st : InterceptState) (sid rid nid : String) (req : CdpRequest)
    (resp : CdpResponse) (sess : SessionInfo)
    (hfind : findSession st.sessions sid = some sess)
    (hcap : sess.shouldInspect &&& shouldInspectBy.responseCatcher ≠ 0)
    (evs : List (String × NetEvent))
    (hnore : ∀ p ∈ evs, ∀ r, p.2 ≠ NetEvent.requestWillBeSent nid r) :
    (∃ rest, (deliver cfg st sid (.requestPaused rid nid req resp)).2 =
      HandlerAction.queueDelete nid ::
      HandlerAction.emitPausing
        { initiator := sess.url, asFetch := true, requestId := rid,
          networkId := some nid, sessionId := sid, request := req,
          response := some resp } :: rest) ∧
    mapGet (deliver cfg st sid (.requestPaused rid nid req resp)).1.queue nid = none ∧
    (∀ e, HandlerAction.emitObservation nid e ∉
      (runDeliver cfg (deliver cfg st sid (.requestPaused rid nid req resp)).1 evs).2) := by
  have hqueue :
      mapGet (deliver cfg st sid (.requestPaused rid nid req resp)).1.queue nid = none := by
    simp only [deliver, hfind]
    split_ifs
    all_goals simp [mapGet_mapDelete, hcap]
  refine ⟨?_, hqueue, ?_⟩
  · simp only [deliver, hfind]
    rw [if_pos hcap]
    split_ifs
    all_goals exact ⟨_, rfl⟩
  · exact runDeliver_no_observation cfg _ evs nid hqueue hnore

theorem C1_witness :
    (findSession stW1.sessions "s1" = some sessW ∧
      sessW.shouldInspect &&& shouldInspectBy.responseCatcher ≠ 0) ∧
    ((∃ rest, (deliver cfgW stW1 "s1" (.requestPaused "f1" "r1" reqW respW)).2 =
      HandlerAction.queueDelete "r1" ::
      HandlerAction.emitPausing
        { initiator := sessW.url, asFetch := true, requestId := "f1",
          networkId := some "r1", sessionId := "s1", request := reqW,
          response := some respW } :: rest) ∧
    mapGet (deliver cfgW stW1 "s1" (.requestPaused "f1" "r1" reqW respW)).1.queue "r1" = none ∧
    (∀ e, HandlerAction.emitObservation "r1" e ∉
      (runDeliver cfgW (deliver cfgW stW1 "s1" (.requestPaused "f1" "r1" reqW respW)).1
        [("s1", NetEvent.loadingFinished "r1")]).2)) :=
  ⟨⟨by decide, by decide⟩,
   C1_pausing_evicts_before_emit cfgW stW1 "s1" "f1" "r1" reqW respW sessW
     (by decide) (by decide) [("s1", NetEvent.loadingFinished "r1")]
     (by intro p hp r hc
         simp only [List.mem_singleton] at hp
         rw [hp] at hc
         exact NetEvent.noConfusion hc)⟩

/-! ## C2: detach and pending observations -/

/-- C2 counterexample: detaching a bound session does *not* drop the pending
observations it created.  Concretely: session `s1` (bound to target `t1`)
created the pending observation for request `r1`; after
`detachSession … "t1"` the session is gone, yet the entry is still in
`networkResponseCatchQueue` — the source never touches the queue on detach
(lines 194-197 and 266-268 only mutate the `sessions` map). -/
theorem C2_counterexample_detach_keeps_pending :
    (detachSession stW1 "t1").sessions = [] ∧
    mapGet (detachSession stW1 "t1").queue "r1" = some entryW ∧
    entryW.sessionId = "s1" := by
  refine ⟨by decide, by decide, by decide⟩

/-- C2 (amended): detaching a bound session removes it from the session
table and stops event delivery to it — every subsequently delivered event
addressed to that session is ignored (no state change, no handler
invocation), so the detached session never emits its pending observations.
Those pending observations are not removed from the shared queue, though:
they remain there, abandoned (see the counterexample). -/
theorem C2_amended_detached_session_silent (cfg : InterceptConfig)
    (st : InterceptState) (tid sid : String)
    (hown : ∀ s ∈ st.sessions, s.sessionId = sid → s.targetId = tid)
    (evs : List NetEvent) :
    (detachSession st tid).queue = st.queue ∧
    findSession (detachSession st tid).sessions sid = none ∧
    runDeliver cfg (detachSession st tid) (evs.map (fun e => (sid, e))) =
      (detachSession st tid, []) := by
  have hfind : findSession (detachSession st tid).sessions sid = none := by
    refine List.find?_eq_none.mpr ?_
    intro s hs
    simp only [detachSession, List.mem_filter] at hs
    intro hbeq
    rw [beq_iff_eq] at hbeq
    have := hown s hs.1 hbeq
    simp [this] at hs
  exact ⟨rfl, hfind, runDeliver_unknown_session cfg _ sid evs hfind⟩

theorem C2_amended_witness :
    (∀ s ∈ stW1.sessions, s.sessionId = "s1" → s.targetId = "t1") ∧
    ((detachSession stW1 "t1").queue = stW1.queue ∧
     findSession (detachSession stW1 "t1").sessions "s1" = none ∧
     runDeliver cfgW (detachSession stW1 "t1")
       ([NetEvent.loadingFinished "r1"].map (fun e => ("s1", e))) =
       (detachSession stW1 "t1", [])) :=
  ⟨by decide,
   C2_amended_detached_session_silent cfgW stW1 "t1" "s1" (by decide)
     [NetEvent.loadingFinished "r1"]⟩

/-! ## C7 lemmas: wildcard compilation -/

theorem replaceAllFuel_nil (pat rep : List Char) (fuel : Nat) :
    replaceAllFuel pat rep fuel [] = [] := by
  cases fuel <;> rfl

theorem replaceAllFuel_single_absent (c : Char) (rep : List Char) :
    ∀ (l : List Char) (fuel : Nat), l.length ≤ fuel → c ∉ l →
      replaceAllFuel [c] rep fuel l = l := by
  intro l
  induction l with
  | nil => intro fuel _ _; exact replaceAllFuel_nil _ _ _
  | cons x xs ih =>
    intro fuel hfuel h
    cases fuel with
    | zero => simp at hfuel
    | succ f =>
      have hcx : c ≠ x := fun hh => h (by rw [hh]; exact List.mem_cons_self x xs)
      have hcond : ¬((([c] : List Char) ≠ []) ∧ [c].isPrefixOf (x :: xs) = true) := by
        rintro ⟨-, hpre⟩
        rw [List.isPrefixOf_iff_prefix, List.cons_prefix_cons] at hpre
        exact hcx hpre.1
      have hfuel' : xs.length ≤ f := by
        simp only [List.length_cons] at hfuel
        omega
      simp only [replaceAllFuel]
      rw [if_neg hcond, ih f hfuel' (fun hm => h (List.mem_cons_of_mem _ hm))]

theorem replaceAll_single_absent (c : Char) (rep l : List Char) (h : c ∉ l) :
    replaceAll [c] rep l = l :=
  replaceAllFuel_single_absent c rep l l.length le_rfl h

theorem replaceAllFuel_star_suffix :
    ∀ (s : List Char) (fuel : Nat), (s ++ ['*']).length ≤ fuel → '*' ∉ s →
      replaceAllFuel ['*'] ['.', '*'] fuel (s ++ ['*']) = s ++ ['.', '*'] := by
  intro s
  induction s with
  | nil =>
    intro fuel hfuel _
    cases fuel with
    | zero => simp at hfuel
    | succ f =>
      simp only [List.nil_append, replaceAllFuel]
      rw [if_pos ⟨by simp, by rw [List.isPrefixOf_iff_prefix]⟩]
      simp [replaceAllFuel_nil]
  | cons x xs ih =>
    intro fuel hfuel h
    cases fuel with
    | zero => simp at hfuel
    | succ f =>
      have hx : x ≠ '*' := fun hh => h (List.mem_cons.mpr (Or.inl hh.symm))
      have hcond : ¬(((['*'] : List Char) ≠ []) ∧
          ['*'].isPrefixOf (x :: (xs ++ ['*'])) = true) := by
        rintro ⟨-, hpre⟩
        rw [List.isPrefixOf_iff_prefix, List.cons_prefix_cons] at hpre
        exact hx hpre.1.symm
      have hfuel' : (xs ++ ['*']).length ≤ f := by
        simp only [List.cons_append, List.length_cons] at hfuel
        omega
      simp only [List.cons_append, replaceAllFuel, List.append_eq]
      rw [if_neg hcond, ih f hfuel' (fun hm => h (List.mem_cons_of_mem _ hm))]

theorem replaceAll_star_suffix (s : List Char) (h : '*' ∉ s) :
    replaceAll ['*'] ['.', '*'] (s ++ ['*']) = s ++ ['.', '*'] :=
  replaceAllFuel_star_suffix s (s ++ ['*']).length le_rfl h

theorem escapeRegex_append (p q : List Char) :
    escapeRegex (p ++ q) = escapeRegex p ++ escapeRegex q := by
  simp [escapeRegex, List.map_append, List.flatten_append]

theorem escapeRegex_id (s : List Char) (h : ∀ c ∈ s, c ∉ regexSpecialChars) :
    escapeRegex s = s := by
  induction s with
  | nil => rfl
  | cons x xs ih =>
    have hx : x ∉ regexSpecialChars := h x (List.mem_cons_self _ _)
    have ih' := ih (fun c hc => h c (List.mem_cons_of_mem _ hc))
    show escapeRegexChar x ++ escapeRegex xs = x :: xs
    rw [escapeRegexChar, if_neg hx, ih']
    rfl

theorem wildcardRegexSource_prefix_star (s : List Char)
    (hs : ∀ c ∈ s, c ∉ wildcardMetaChars) :
    wildcardRegexSource (s ++ ['*']) = s ++ ['.', '*'] := by
  have hspec : ∀ c ∈ s, c ∉ regexSpecialChars := fun c hc hmem =>
    hs c hc (by simp only [wildcardMetaChars, List.mem_cons]; exact Or.inr (Or.inr hmem))
  have hstar : '*' ∉ s := fun hm => hs '*' hm (by decide)
  have hq : '?' ∉ s ++ ['.', '*'] := by
    intro hm
    rcases List.mem_append.mp hm with hm | hm
    · exact hs '?' hm (by decide)
    · simp at hm
  have h1 : escapeRegex (s ++ ['*']) = s ++ ['*'] := by
    rw [escapeRegex_append, escapeRegex_id s hspec,
        show escapeRegex ['*'] = ['*'] from by decide]
  rw [wildcardRegexSource, h1, replaceAll_star_suffix s hstar,
      replaceAll_single_absent '?' ['.'] _ hq]

theorem parseRegexAtoms_cons_lit (x : Char) (l : List Char)
    (h1 : x ≠ '\\') (h2 : x ≠ '.') :
    parseRegexAtoms (x :: l) = .lit x :: parseRegexAtoms l := by
  rw [parseRegexAtoms.eq_def]
  split <;> simp_all

theorem parseRegexAtoms_lit_block (s : List Char)
    (hs : ∀ c ∈ s, c ∉ wildcardMetaChars) :
    parseRegexAtoms (s ++ ['.', '*']) = s.map RegexAtom.lit ++ [RegexAtom.anyStar] := by
  induction s with
  | nil => rfl
  | cons x xs ih =>
    have hx1 : x ≠ '\\' := fun hh => hs x (List.mem_cons_self _ _) (by rw [hh]; decide)
    have hx2 : x ≠ '.' := fun hh => hs x (List.mem_cons_self _ _) (by rw [hh]; decide)
    rw [List.cons_append, parseRegexAtoms_cons_lit x _ hx1 hx2,
        ih (fun c hc => hs c (List.mem_cons_of_mem _ hc))]
    simp

theorem regexAccepts_anyStar_all (t : List Char) :
    regexAccepts [RegexAtom.anyStar] t = t.all (fun c => !isLineTerminator c) := by
  induction t with
  | nil => rfl
  | cons x xs ih =>
    show (starSuffixes (x :: xs)).any (fun suffix => regexAccepts [] suffix) = _
    rw [starSuffixes]
    by_cases hx : isLineTerminator x = true
    · rw [if_pos hx]
      simp [regexAccepts, hx]
    · rw [if_neg hx, List.any_cons,
        show (starSuffixes xs).any (fun suffix => regexAccepts [] suffix) =
            regexAccepts [RegexAtom.anyStar] xs from rfl, ih]
      simp [regexAccepts, hx, List.all_cons]

theorem regexAccepts_lits_anyStar (s t : List Char) :
    regexAccepts (s.map RegexAtom.lit ++ [RegexAtom.anyStar]) t = true ↔
      s <+: t ∧ ∀ c ∈ t.drop s.length, isLineTerminator c = false := by
  induction s generalizing t with
  | nil =>
    simp only [List.map_nil, List.nil_append, List.length_nil, List.drop_zero]
    rw [regexAccepts_anyStar_all]
    simp [List.all_eq_true, List.nil_prefix]
  | cons c s' ih =>
    cases t with
    | nil => simp [regexAccepts, List.prefix_nil]
    | cons x xs =>
      simp only [List.map_cons, List.cons_append, regexAccepts, List.length_cons,
        List.drop_succ_cons, List.append_eq]
      simp only [Bool.and_eq_true, beq_iff_eq, ih, List.cons_prefix_cons]
      tauto

/-! ## C7: wildcard compilation and prefix matching -/

/-- C7 counterexample: the claim says the matcher compiled from `s ++ "*"`
matches exactly the strings having `s` as a prefix.  Take `s = "a"` (free of
metacharacters) and `t = "a" ++ "\n"`: `s` is a prefix of `t`, yet the
compiled matcher rejects `t`, because the source builds its `RegExp` without
flags (line 456), so the `.` in the substituted `.*` does not match a line
terminator and `$` only asserts end of input. -/
theorem C7_counterexample_newline :
    (∀ c ∈ "a".data, c ∉ wildcardMetaChars) ∧
    "a".data <+: ("a".data ++ ['\n']) ∧
    wildcardTest ("a".data ++ ['*']) ("a".data ++ ['\n']) = false :=
  ⟨by decide, List.prefix_append _ _, by decide⟩

/-- C7 (amended): for every pattern `s` free of wildcard and
regular-expression metacharacters, the matcher compiled from `s ++ "*"`
accepts exactly the strings that have `s` as a prefix and contain no
line terminator after that prefix (the flagless dot excludes line
terminators); and the matcher compiled from `a?c` accepts `abc` but neither
`ac` nor `abbc`. -/
theorem C7_wildcard_prefix_matching (s : List Char)
    (hs : ∀ c ∈ s, c ∉ wildcardMetaChars) :
    (∀ t, wildcardTest (s ++ ['*']) t = true ↔
      s <+: t ∧ ∀ c ∈ t.drop s.length, isLineTerminator c = false) ∧
    wildcardTest "a?c".data "abc".data = true ∧
    wildcardTest "a?c".data "ac".data = false ∧
    wildcardTest "a?c".data "abbc".data = false := by
  refine ⟨?_, by decide, by decide, by decide⟩
  intro t
  rw [wildcardTest, wildcardToRegex, wildcardRegexSource_prefix_star s hs,
      parseRegexAtoms_lit_block s hs, regexAccepts_lits_anyStar]

theorem C7_witness :
    (∀ c ∈ "http:/x/".data, c ∉ wildcardMetaChars) ∧
    (wildcardTest ("http:/x/".data ++ ['*']) "http:/x/a".data = true ↔
      "http:/x/".data <+: "http:/x/a".data ∧
      ∀ c ∈ "http:/x/a".data.drop "http:/x/".data.length,
        isLineTerminator c = false) :=
  ⟨by decide,
   (C7_wildcard_prefix_matching "http:/x/".data (by decide)).1 "http:/x/a".data⟩
